import Mathlib

/-!
Verification of the loan-collection backend's repayment scheduling and
reconciliation engine (`src/routes/loanRoutes.js` and the admin panel routes).

Shallow-embedding conventions, fixed once for the whole development:

* Dates are modelled at day granularity as `Nat` day numbers counted from
  1970-01-01 (a Thursday).  JavaScript's `normalizeDate` (midnight
  normalization) is thus the identity, and `date.getDay()` becomes
  `(d + 4) % 7` with `0 = Sunday`, `6 = Saturday`.
  2024-01-01 (a Monday) is day 19723.
* Currency is modelled in exact integer cents (`Int`).  The source rounds
  every currency operation to 2 decimals (`normalizeAmount`,
  `Number(x.toFixed(2))`); on integer cents that rounding is the identity,
  and the `0.01`/`0.0001` epsilon comparisons become comparisons with `1`
  and `0` cents respectively.
* Mongo `ObjectId`s and client ids are modelled as plain `String`s
  (standing for the hex representation); fresh-id generation
  (`new mongoose.Types.ObjectId()`) is modelled by an explicit supply
  `Nat → String` consumed left to right.
* The holiday store, when a component resolves it to a date lookup
  (`resolveHolidayMap`), is modelled as the resolved lookup
  `Nat → Option String` mapping a day to the holiday reason.
-/

namespace LoanSystem

/-! ## Calendar primitives (`loanRoutes.js` lines 30–79, 443–462) -/

/-- `WORKING_DAYS_COUNT` from `loanRoutes.js` line 30. -/
def WORKING_DAYS_COUNT : Nat := 23

/-- `WEEKLY_INSTALLMENT_COUNT` from `loanRoutes.js` line 32. -/
def WEEKLY_INSTALLMENT_COUNT : Nat := 5

/-- JavaScript `date.getDay()` on a day number: `0 = Sunday`, …, `6 = Saturday`. -/
def dayOfWeek (d : Nat) : Nat := (d + 4) % 7

/-- `isWeekend` from `loanRoutes.js` lines 61–64. -/
def isWeekend (d : Nat) : Bool := dayOfWeek d == 0 || dayOfWeek d == 6

theorem isWeekend_iff (d : Nat) :
    isWeekend d = true ↔ (d + 4) % 7 = 0 ∨ (d + 4) % 7 = 6 := by
  simp [isWeekend, dayOfWeek]

theorem isWeekend_eq_false_iff (d : Nat) :
    isWeekend d = false ↔ (d + 4) % 7 ≠ 0 ∧ (d + 4) % 7 ≠ 6 := by
  simp [isWeekend, dayOfWeek]

/-- `getNextBusinessDay` from `loanRoutes.js` lines 450–462: increment the
day until it is not a weekend.  Weekends come in (at most) consecutive
pairs, so the `do … while` loop is unrolled to three candidate days. -/
def getNextBusinessDay (d : Nat) : Nat :=
  if !isWeekend (d + 1) then d + 1
  else if !isWeekend (d + 2) then d + 2
  else d + 3

theorem getNextBusinessDay_gt (d : Nat) : d < getNextBusinessDay d := by
  unfold getNextBusinessDay
  split
  · omega
  · split <;> omega

theorem getNextBusinessDay_not_weekend (d : Nat) :
    isWeekend (getNextBusinessDay d) = false := by
  unfold getNextBusinessDay
  cases hw1 : isWeekend (d + 1)
  · simp [hw1]
  · cases hw2 : isWeekend (d + 2)
    · simp [hw1, hw2]
    · simp only [hw1, hw2, Bool.not_true, Bool.false_eq_true, if_false]
      rw [isWeekend_iff] at hw1 hw2
      rw [isWeekend_eq_false_iff]
      omega

/-- `getNextBusinessDay` is the smallest business day strictly after `d`:
every day strictly between is a weekend. -/
theorem getNextBusinessDay_min (d x : Nat) (h1 : d < x)
    (h2 : x < getNextBusinessDay d) : isWeekend x = true := by
  unfold getNextBusinessDay at h2
  rw [isWeekend_iff]
  cases hw1 : isWeekend (d + 1)
  · simp [hw1] at h2
    omega
  · cases hw2 : isWeekend (d + 2)
    · simp [hw1, hw2] at h2
      rw [isWeekend_iff] at hw1
      omega
    · simp [hw1, hw2] at h2
      rw [isWeekend_iff] at hw1
      rw [isWeekend_iff] at hw2
      omega

/-- The weekend-skipping step used by the daily schedule generator: the
first non-weekend day at or after `d` (the generator's cursor walk,
`loanRoutes.js` lines 85–96, only emits non-weekend days). -/
def nextNonWeekendFrom (d : Nat) : Nat :=
  if !isWeekend d then d
  else if !isWeekend (d + 1) then d + 1
  else d + 2

/-- `getWeekdaysBetweenSync` from `loanRoutes.js` lines 66–79: count the
days in the inclusive range `[s, e]` that are neither weekends nor members
of the holiday set.  Returns `0` when `e < s`. -/
def getWeekdaysBetweenSync (s e : Nat) (holidaySet : List Nat) : Nat :=
  ((List.range' s (e + 1 - s)).filter
    (fun d => !isWeekend d && !holidaySet.contains d)).length

/-! ## Repayment-schedule entries and the schedule generator
(`loanRoutes.js` lines 81–129) -/

/-- One repayment-schedule entry (`repaymentScheduleSchema` in
`models/loan.js`): due date, status, amount paid against it, and the
optional holiday reason. -/
structure Entry where
  date : Nat
  status : String
  amountPaid : Int
  holidayReason : Option String := none
  deriving Repr, DecidableEq

/-- The cursor walk of `generateDailyRepaymentSchedule` (`loanRoutes.js`
lines 81–99): `idx` is the schedule length so far, `n` the number of
entries still to produce.  The JavaScript walks one day at a time and
pushes only non-weekend days; that is equivalent to jumping to the next
non-weekend day, pushing it, and resuming from the following day. -/
def generateDailyAux : Nat → Nat → Nat → List Entry
  | _, _, 0 => []
  | cursor, idx, n + 1 =>
    let d := nextNonWeekendFrom cursor
    { date := d, status := if idx == 0 then "approved" else "pending",
      amountPaid := 0 } :: generateDailyAux (d + 1) (idx + 1) n

/-- `generateDailyRepaymentSchedule` from `loanRoutes.js` lines 81–99:
collect `WORKING_DAYS_COUNT = 23` non-weekend days starting at
`startDate`; the first entry is `approved`, the rest `pending`. -/
def generateDailyRepaymentSchedule (startDate : Nat) : List Entry :=
  generateDailyAux startDate 0 WORKING_DAYS_COUNT

/-- `generateWeeklyRepaymentSchedule` from `loanRoutes.js` lines 101–121:
five entries, seven days apart, no weekend skipping. -/
def generateWeeklyRepaymentSchedule (startDate : Nat) : List Entry :=
  (List.range WEEKLY_INSTALLMENT_COUNT).map fun i =>
    { date := startDate + 7 * i,
      status := if i == 0 then "approved" else "pending",
      amountPaid := 0 }

/-- `generateRepaymentSchedule` from `loanRoutes.js` lines 123–129. -/
def generateRepaymentSchedule (startDate : Nat) (loanType : String) :
    List Entry :=
  if loanType == "weekly" then generateWeeklyRepaymentSchedule startDate
  else generateDailyRepaymentSchedule startDate

/-- Day number of 2024-01-02, a Tuesday (2024-01-01, a Monday, is day
19723 since 1970-01-01). -/
def day20240102 : Nat := 19724

example : dayOfWeek day20240102 = 2 := by decide

/-! ## Claim C3 -/

/-- C3 counterexample: the claim says `generate(2024-01-02, daily)`
produces exactly 22 entries ending 2024-01-31, but the code's
`WORKING_DAYS_COUNT` is 23, so the generated schedule has 23 entries
(ending 2024-02-01). -/
theorem generateDaily_20240102_not_22_entries :
    (generateDailyRepaymentSchedule day20240102).length ≠ 22 := by decide

/-- C3 (amended): generating a daily schedule starting 2024-01-02 (a
Tuesday) produces exactly 23 entries, all non-weekend days, dated from
2024-01-02 (day 19724) through 2024-02-01 (day 19754) with the four
intervening weekends skipped; the first entry's status is `approved` and
all later entries are `pending`, all with zero `amountPaid`. -/
theorem generateDaily_20240102_schedule :
    (generateDailyRepaymentSchedule day20240102).map Entry.date =
      [19724, 19725, 19726, 19727,
       19730, 19731, 19732, 19733, 19734,
       19737, 19738, 19739, 19740, 19741,
       19744, 19745, 19746, 19747, 19748,
       19751, 19752, 19753, 19754] ∧
    (generateDailyRepaymentSchedule day20240102).map Entry.status =
      "approved" :: List.replicate 22 "pending" ∧
    (generateDailyRepaymentSchedule day20240102).map Entry.amountPaid =
      List.replicate 23 0 ∧
    ∀ e ∈ generateDailyRepaymentSchedule day20240102,
      isWeekend e.date = false := by decide

/-! ## Payment-ledger sanitization (`sanitizeDailyPayments`,
`loanRoutes.js` lines 533–744) -/

/-- One raw payment-ledger entry as read from the loan document.  `none`
fields model the invalid shapes the sanitizer has to repair: a missing or
non-numeric `amount`, an unparseable `date`, a missing `_id`.  The ledger
itself is a `List (Option RawPayment)` so that a null array slot
(`if (!rawPayment)`) is representable as `none`. -/
structure RawPayment where
  id : Option String
  amount : Option Int
  date : Option Nat
  deriving Repr, DecidableEq

/-- A sanitized payment: stable id, positive amount (cents), valid date. -/
structure Payment where
  id : String
  amount : Int
  date : Nat
  deriving Repr, DecidableEq

/-- Re-inject a sanitized payment into the raw-ledger shape (what the
sanitizer writes back to `loanDetails.dailyPayment`). -/
def Payment.toRaw (p : Payment) : Option RawPayment :=
  some { id := some p.id, amount := some p.amount, date := some p.date }

/-- Identifier extraction (`loanRoutes.js` lines 575–591): a string `_id`
counts only when non-empty (the JavaScript trims string ids and requires
`trim().length > 0`; ids are modelled as already-trimmed strings). -/
def rawIdent (p : RawPayment) : Option String :=
  match p.id with
  | some s => if s = "" then none else some s
  | none => none

/-- Accumulator of the sanitizer's first pass (`uniquePayments`,
`seenIds`, `seenCompositeKeys`, the `changed` flag, and the fresh-id
counter standing for `new mongoose.Types.ObjectId()` generation). -/
structure SanState where
  uniq : List Payment
  seenIds : List String
  seenKeys : List (Nat × Int)
  changed : Bool
  fresh : Nat
  deriving Repr

/-- One iteration of the sanitizer's `existingPayments.forEach` loop
(`loanRoutes.js` lines 551–628): drop null entries, non-positive or
non-numeric amounts, and unparseable dates; deduplicate by id when an id
is present and by the (date, amount) composite key otherwise; assign a
fresh id to entries missing one. -/
def sanStep (supply : Nat → String) (st : SanState)
    (raw : Option RawPayment) : SanState :=
  match raw with
  | none => { st with changed := true }
  | some p =>
    match p.amount with
    | none => { st with changed := true }
    | some a =>
      if a ≤ 0 then { st with changed := true }
      else
        match p.date with
        | none => { st with changed := true }
        | some d =>
          match rawIdent p with
          | some i =>
            if st.seenIds.contains i then { st with changed := true }
            else
              { st with
                uniq := st.uniq ++ [{ id := i, amount := a, date := d }],
                seenIds := st.seenIds ++ [i],
                seenKeys := st.seenKeys ++ [(d, a)] }
          | none =>
            if st.seenKeys.contains (d, a) then { st with changed := true }
            else
              { uniq := st.uniq ++
                  [{ id := supply st.fresh, amount := a, date := d }],
                seenIds := st.seenIds ++ [supply st.fresh],
                seenKeys := st.seenKeys ++ [(d, a)],
                changed := true,
                fresh := st.fresh + 1 }

/-- The sanitizer's sort comparator (`loanRoutes.js` lines 630–638):
ascending date, ties broken by id string comparison. -/
def payLT (p q : Payment) : Bool :=
  decide (p.date < q.date) || (p.date == q.date && decide (p.id < q.id))

/-- Stable insertion into a `payLT`-sorted list (JavaScript's
`Array.prototype.sort` is stable; ties keep their original order). -/
def insertPayment (p : Payment) : List Payment → List Payment
  | [] => [p]
  | q :: rest => if payLT p q then p :: q :: rest else q :: insertPayment p rest

/-- Stable sort by `payLT`. -/
def sortPayments : List Payment → List Payment
  | [] => []
  | p :: rest => insertPayment p (sortPayments rest)

/-- A ledger entry's `date|amount|id` signature (`signatureOf` /
`originalSignatures`, `loanRoutes.js` lines 640–698), for a valid raw
entry; `none` for entries the sanitizer drops as invalid.  A missing id
contributes the empty string. -/
def rawSignature (raw : Option RawPayment) : Option (Nat × Int × String) :=
  match raw with
  | none => none
  | some p =>
    match p.amount with
    | none => none
    | some a =>
      if a ≤ 0 then none
      else
        match p.date with
        | none => none
        | some d => some (d, a, (rawIdent p).getD "")

/-- Lexicographic comparator on signatures (the JavaScript sorts the
signature strings; any canonical order makes the subsequent elementwise
equality test a multiset-equality test). -/
def sigLT (x y : Nat × Int × String) : Bool :=
  decide (x.1 < y.1) ||
    (x.1 == y.1 &&
      (decide (x.2.1 < y.2.1) || (x.2.1 == y.2.1 && decide (x.2.2 < y.2.2))))

/-- Insertion into a `sigLT`-sorted list. -/
def insertSig (x : Nat × Int × String) :
    List (Nat × Int × String) → List (Nat × Int × String)
  | [] => [x]
  | y :: rest => if sigLT x y then x :: y :: rest else y :: insertSig x rest

/-- Canonical sort of signatures. -/
def sortSigs : List (Nat × Int × String) → List (Nat × Int × String)
  | [] => []
  | x :: rest => insertSig x (sortSigs rest)

/-- What `sanitizeDailyPayments` returns (`loanRoutes.js` line 739): the
normalized ledger total, the surviving payments, and whether anything
changed. -/
structure SanitizeResult where
  total : Int
  payments : List Payment
  changed : Bool
  deriving Repr, DecidableEq

/-- `sanitizeDailyPayments` from `loanRoutes.js` lines 533–744, as a
function of the stored ledger (the loan-document mutations it performs are
applied by its callers' models from this result).  `supply` models
`new mongoose.Types.ObjectId()` hex strings, consumed left to right. -/
def sanitizeDailyPayments (supply : Nat → String)
    (ledger : List (Option RawPayment)) : SanitizeResult :=
  let st := ledger.foldl (sanStep supply)
    { uniq := [], seenIds := [], seenKeys := [], changed := false, fresh := 0 }
  let sorted := sortPayments st.uniq
  let originalSigs := sortSigs (ledger.filterMap rawSignature)
  let sanitizedSigs :=
    sortSigs (sorted.map fun p => (p.date, p.amount, p.id))
  let changed := st.changed || decide (originalSigs ≠ sanitizedSigs)
  { total := (sorted.map Payment.amount).sum,
    payments := sorted,
    changed := changed }

/-! ## Claim C8 -/

/-- C8: submitting the identical payment (amount 500.00, date 2024-02-01,
day 19754) twice with the same client-generated id leaves exactly one
ledger entry with that (date, amount, id) signature after sanitization,
and the recomputed `amountPaidSoFar` total reflects a single application
(500.00, not 1000.00). -/
theorem sanitize_duplicate_payment_single_application :
    let dup : Option RawPayment :=
      some { id := some "a", amount := some 50000, date := some 19754 }
    let r := sanitizeDailyPayments (fun n => String.mk ('f' ::
      List.replicate n 'f')) [dup, dup]
    r.payments = [{ id := "a", amount := 50000, date := 19754 }] ∧
    r.total = 50000 ∧
    (r.payments.filter
      (fun p => p.date == 19754 && p.amount == 50000 && p.id == "a")).length
      = 1 := by
  decide

/-! ## Order lemmas for the sanitizer's sort -/

theorem payLT_iff (p q : Payment) :
    payLT p q = true ↔ p.date < q.date ∨ (p.date = q.date ∧ p.id < q.id) := by
  simp [payLT]

theorem payLT_eq_false_iff (p q : Payment) :
    payLT p q = false ↔ ¬(p.date < q.date ∨ (p.date = q.date ∧ p.id < q.id)) := by
  rw [← payLT_iff, Bool.eq_false_iff, Ne, Bool.not_eq_true]

theorem payLT_asymm {p q : Payment} (h : payLT p q = true) :
    payLT q p = false := by
  rw [payLT_iff] at h
  rw [payLT_eq_false_iff]
  rcases h with h | ⟨h1, h2⟩
  · rintro (h' | ⟨h1', _⟩) <;> omega
  · rintro (h' | ⟨_, h2'⟩)
    · omega
    · exact absurd h2' (not_lt_of_lt h2)

theorem payLT_trans {p q r : Payment} (h1 : payLT p q = true)
    (h2 : payLT q r = true) : payLT p r = true := by
  rw [payLT_iff] at h1 h2 ⊢
  rcases h1 with h1 | ⟨ha, hb⟩ <;> rcases h2 with h2 | ⟨hc, hd⟩
  · exact Or.inl (by omega)
  · exact Or.inl (by omega)
  · exact Or.inl (by omega)
  · exact Or.inr ⟨ha.trans hc, hb.trans hd⟩

theorem payLT_total {p q : Payment} (h : payLT q p = false)
    (hid : p.id ≠ q.id) : payLT p q = true := by
  rw [payLT_eq_false_iff] at h
  rw [payLT_iff]
  push_neg at h
  obtain ⟨h1, h2⟩ := h
  rcases Nat.lt_or_ge p.date q.date with hd | hd
  · exact Or.inl hd
  · have hdd : p.date = q.date := by omega
    refine Or.inr ⟨hdd, ?_⟩
    rcases lt_trichotomy p.id q.id with h' | h' | h'
    · exact h'
    · exact absurd h' hid
    · exact absurd h' (h2 hdd.symm)

theorem mem_insertPayment {x p : Payment} {l : List Payment} :
    x ∈ insertPayment p l ↔ x = p ∨ x ∈ l := by
  induction l with
  | nil => simp [insertPayment]
  | cons q rest ih =>
    unfold insertPayment
    split
    · simp
    · simp only [List.mem_cons, ih]
      tauto

theorem insertPayment_perm (p : Payment) (l : List Payment) :
    List.Perm (insertPayment p l) (p :: l) := by
  induction l with
  | nil => simp [insertPayment]
  | cons q rest ih =>
    unfold insertPayment
    split
    · exact List.Perm.refl _
    · exact (List.Perm.cons q ih).trans (List.Perm.swap p q rest)

theorem sortPayments_perm (l : List Payment) :
    List.Perm (sortPayments l) l := by
  induction l with
  | nil => exact List.Perm.refl _
  | cons p rest ih =>
    exact (insertPayment_perm p (sortPayments rest)).trans (ih.cons p)

theorem insertPayment_pairwise {p : Payment} {l : List Payment}
    (h : l.Pairwise (fun a b => payLT b a = false)) :
    (insertPayment p l).Pairwise (fun a b => payLT b a = false) := by
  induction l with
  | nil => simp [insertPayment]
  | cons q rest ih =>
    rw [List.pairwise_cons] at h
    obtain ⟨hq, hrest⟩ := h
    unfold insertPayment
    split
    · rename_i hlt
      refine List.Pairwise.cons ?_ (List.Pairwise.cons hq hrest)
      intro x hx
      rcases List.mem_cons.mp hx with rfl | hx'
      · exact payLT_asymm hlt
      · rcases hq2 : payLT x p with _ | _
        · rfl
        · have := payLT_trans hq2 hlt
          have := hq x hx'
          simp_all
    · rename_i hnlt
      refine List.Pairwise.cons ?_ (ih hrest)
      intro x hx
      rcases mem_insertPayment.mp hx with rfl | hx'
      · simpa using hnlt
      · exact hq x hx'

theorem sortPayments_pairwise (l : List Payment) :
    (sortPayments l).Pairwise (fun a b => payLT b a = false) := by
  induction l with
  | nil => simp [sortPayments]
  | cons p rest ih => exact insertPayment_pairwise ih

/-- On a strictly `payLT`-sorted list, the sanitizer's sort is the
identity. -/
theorem sortPayments_eq_of_sorted {l : List Payment}
    (h : l.Pairwise (fun a b => payLT a b = true)) : sortPayments l = l := by
  induction l with
  | nil => rfl
  | cons p rest ih =>
    rw [List.pairwise_cons] at h
    obtain ⟨hp, hrest⟩ := h
    show insertPayment p (sortPayments rest) = p :: rest
    rw [ih hrest]
    cases rest with
    | nil => rfl
    | cons q rest' =>
      unfold insertPayment
      rw [if_pos (hp q (List.mem_cons_self q rest'))]

/-- A `payLT`-sorted list whose ids are pairwise distinct is strictly
sorted. -/
theorem pairwise_payLT_of_nodup {l : List Payment}
    (hs : l.Pairwise (fun a b => payLT b a = false))
    (hd : (l.map Payment.id).Nodup) :
    l.Pairwise (fun a b => payLT a b = true) := by
  induction l with
  | nil => simp
  | cons p rest ih =>
    rw [List.pairwise_cons] at hs ⊢
    rw [List.map_cons, List.nodup_cons] at hd
    refine ⟨?_, ih hs.2 hd.2⟩
    intro q hq
    refine payLT_total (hs.1 q hq) ?_
    intro hiq
    exact hd.1 (hiq ▸ List.mem_map_of_mem Payment.id hq)

/-! ## Invariants of the sanitizer's first pass -/

/-- Invariant of the `forEach` accumulator: the seen-id set records
exactly the kept payments' ids in order, those ids are pairwise distinct
and non-empty, every id is either a client id (never produced by the
fresh-id supply) or a supply value below the current counter, and all
kept amounts are positive. -/
def SanInv (supply : Nat → String) (st : SanState) : Prop :=
  st.seenIds = st.uniq.map Payment.id ∧
  st.seenIds.Nodup ∧
  (∀ s ∈ st.seenIds, s ≠ "") ∧
  (∀ s ∈ st.seenIds, (∀ m, s ≠ supply m) ∨ ∃ m, m < st.fresh ∧ s = supply m) ∧
  (∀ p ∈ st.uniq, 0 < p.amount)

/-- A raw ledger entry whose client id is never a fresh-supply value
(Mongo `ObjectId` generation never collides with existing ids). -/
def IdentFresh (supply : Nat → String) (raw : Option RawPayment) : Prop :=
  ∀ p, raw = some p → ∀ i, rawIdent p = some i → ∀ m, i ≠ supply m

theorem sanStep_inv {supply : Nat → String}
    (hinj : Function.Injective supply) {st : SanState}
    {raw : Option RawPayment} (hraw : IdentFresh supply raw)
    (hne : ∀ n, supply n ≠ "") (h : SanInv supply st) :
    SanInv supply (sanStep supply st raw) := by
  obtain ⟨hmap, hnd, hne', hsup, hamt⟩ := h
  rcases raw with _ | p
  · simp only [sanStep]
    exact ⟨hmap, hnd, hne', hsup, hamt⟩
  rcases hA : p.amount with _ | a
  · simp only [sanStep, hA]
    exact ⟨hmap, hnd, hne', hsup, hamt⟩
  by_cases hle : a ≤ 0
  · simp only [sanStep, hA, if_pos hle]
    exact ⟨hmap, hnd, hne', hsup, hamt⟩
  rcases hD : p.date with _ | d
  · simp only [sanStep, hA, if_neg hle, hD]
    exact ⟨hmap, hnd, hne', hsup, hamt⟩
  rcases hI : rawIdent p with _ | i
  · -- missing id: composite-key branch
    by_cases hseen : st.seenKeys.contains (d, a)
    · simp only [sanStep, hA, if_neg hle, hD, hI, if_pos hseen]
      exact ⟨hmap, hnd, hne', hsup, hamt⟩
    · simp only [sanStep, hA, if_neg hle, hD, hI, if_neg hseen]
      have hfreshmem : supply st.fresh ∉ st.seenIds := by
        intro hm
        rcases hsup _ hm with hnever | ⟨m, hmlt, hm'⟩
        · exact hnever st.fresh rfl
        · have := hinj hm'
          omega
      refine ⟨by simp [hmap], ?_, ?_, ?_, ?_⟩
      · simpa [List.nodup_append] using ⟨hnd, fun hm => hfreshmem hm⟩
      · intro s hs
        rcases List.mem_append.mp hs with hs | hs
        · exact hne' s hs
        · simp at hs
          exact hs ▸ hne st.fresh
      · intro s hs
        rcases List.mem_append.mp hs with hs | hs
        · rcases hsup s hs with h1 | ⟨m, hm, h2⟩
          · exact Or.inl h1
          · exact Or.inr ⟨m, Nat.lt_succ_of_lt hm, h2⟩
        · simp at hs
          exact Or.inr ⟨st.fresh, Nat.lt_succ_self st.fresh, hs⟩
      · intro q hq
        rcases List.mem_append.mp hq with hq | hq
        · exact hamt q hq
        · simp at hq
          subst hq
          exact show (0 : Int) < a by omega
  · -- id present: id-dedup branch
    by_cases hseen : st.seenIds.contains i
    · simp only [sanStep, hA, if_neg hle, hD, hI, if_pos hseen]
      exact ⟨hmap, hnd, hne', hsup, hamt⟩
    · simp only [sanStep, hA, if_neg hle, hD, hI, if_neg hseen]
      have hmem : i ∉ st.seenIds := by
        intro hm
        exact hseen (List.elem_iff.mpr hm)
      have hie : i ≠ "" := by
        unfold rawIdent at hI
        rcases hPid : p.id with _ | s
        · rw [hPid] at hI
          exact absurd hI (by simp)
        · rw [hPid] at hI
          by_cases hs : s = "" <;> simp [hs] at hI
          exact hI ▸ hs
      refine ⟨by simp [hmap], ?_, ?_, ?_, ?_⟩
      · simpa [List.nodup_append] using ⟨hnd, fun hm => hmem hm⟩
      · intro s hs
        rcases List.mem_append.mp hs with hs | hs
        · exact hne' s hs
        · simp at hs
          exact hs ▸ hie
      · intro s hs
        rcases List.mem_append.mp hs with hs | hs
        · exact hsup s hs
        · simp at hs
          refine Or.inl fun m => ?_
          rw [hs]
          exact hraw p rfl i hI m
      · intro q hq
        rcases List.mem_append.mp hq with hq | hq
        · exact hamt q hq
        · simp at hq
          subst hq
          exact show (0 : Int) < a by omega

theorem foldl_sanStep_inv {supply : Nat → String}
    (hinj : Function.Injective supply) (hne : ∀ n, supply n ≠ "") :
    ∀ (l : List (Option RawPayment)) (st : SanState),
      (∀ raw ∈ l, IdentFresh supply raw) → SanInv supply st →
      SanInv supply (l.foldl (sanStep supply) st)
  | [], _, _, h => h
  | raw :: rest, st, hfresh, h =>
    foldl_sanStep_inv hinj hne rest (sanStep supply st raw)
      (fun r hr => hfresh r (List.mem_cons_of_mem raw hr))
      (sanStep_inv hinj (hfresh raw (List.mem_cons_self raw rest)) hne h)

/-- The initial accumulator satisfies the invariant. -/
theorem sanInv_init (supply : Nat → String) :
    SanInv supply
      { uniq := [], seenIds := [], seenKeys := [], changed := false,
        fresh := 0 } := by
  refine ⟨rfl, List.nodup_nil, ?_, ?_, ?_⟩ <;> intro x hx <;> simp at hx

/-- Replaying an already-sanitized payment list through the first pass
keeps every entry, in order, without setting the `changed` flag. -/
theorem foldl_sanStep_replay (supply2 : Nat → String) :
    ∀ (P : List Payment) (st : SanState),
      st.changed = false →
      (∀ p ∈ P, 0 < p.amount) →
      (∀ p ∈ P, p.id ≠ "") →
      (st.seenIds ++ P.map Payment.id).Nodup →
      ((P.map Payment.toRaw).foldl (sanStep supply2) st).uniq
          = st.uniq ++ P ∧
        ((P.map Payment.toRaw).foldl (sanStep supply2) st).changed = false := by
  intro P
  induction P with
  | nil =>
    intro st hch _ _ _
    exact ⟨(List.append_nil st.uniq).symm, hch⟩
  | cons p rest ih =>
    intro st hch hpos hid hnd
    have hmem : p.id ∉ st.seenIds := by
      rw [List.map_cons, List.nodup_append] at hnd
      intro hm
      exact hnd.2.2 hm (List.mem_cons_self _ _)
    have hcont : st.seenIds.contains p.id = false := by
      rw [Bool.eq_false_iff]
      intro hc
      exact hmem (List.elem_iff.mp hc)
    have hstep : sanStep supply2 st p.toRaw =
        { st with
          uniq := st.uniq ++ [p],
          seenIds := st.seenIds ++ [p.id],
          seenKeys := st.seenKeys ++ [(p.date, p.amount)] } := by
      have hple : ¬ p.amount ≤ 0 := not_le.mpr (hpos p (List.mem_cons_self _ _))
      have hpne : ¬ p.id = "" := hid p (List.mem_cons_self _ _)
      simp only [Payment.toRaw, sanStep, rawIdent, if_neg hple, if_neg hpne,
        hcont, Bool.false_eq_true, if_false]
    rw [List.map_cons, List.foldl_cons, hstep]
    have hnd' : ((st.seenIds ++ [p.id]) ++ rest.map Payment.id).Nodup := by
      rw [List.append_assoc]
      simpa using hnd
    obtain ⟨h1, h2⟩ := ih
      { st with
        uniq := st.uniq ++ [p],
        seenIds := st.seenIds ++ [p.id],
        seenKeys := st.seenKeys ++ [(p.date, p.amount)] }
      hch (fun q hq => hpos q (List.mem_cons_of_mem p hq))
      (fun q hq => hid q (List.mem_cons_of_mem p hq)) hnd'
    refine ⟨?_, h2⟩
    rw [h1]
    simp

/-- The signature of a re-injected sanitized payment. -/
theorem rawSignature_toRaw {p : Payment} (hpos : 0 < p.amount)
    (hid : p.id ≠ "") :
    rawSignature p.toRaw = some (p.date, p.amount, p.id) := by
  have hple : ¬ p.amount ≤ 0 := not_le.mpr hpos
  simp only [rawSignature, Payment.toRaw, rawIdent, if_neg hple, if_neg hid,
    Option.getD_some]

theorem filterMap_rawSignature_toRaw (P : List Payment)
    (hpos : ∀ p ∈ P, 0 < p.amount) (hid : ∀ p ∈ P, p.id ≠ "") :
    (P.map Payment.toRaw).filterMap rawSignature =
      P.map fun p => (p.date, p.amount, p.id) := by
  induction P with
  | nil => rfl
  | cons p rest ih =>
    rw [List.map_cons, List.filterMap_cons, List.map_cons,
      rawSignature_toRaw (hpos p (List.mem_cons_self _ _))
        (hid p (List.mem_cons_self _ _)),
      ih (fun q hq => hpos q (List.mem_cons_of_mem p hq))
        (fun q hq => hid q (List.mem_cons_of_mem p hq))]

/-- Unfolding equation for the `payments` field of the sanitizer. -/
theorem sanitize_payments_def (supply : Nat → String)
    (ledger : List (Option RawPayment)) :
    (sanitizeDailyPayments supply ledger).payments =
      sortPayments (ledger.foldl (sanStep supply)
        { uniq := [], seenIds := [], seenKeys := [], changed := false,
          fresh := 0 }).uniq := rfl

/-- Unfolding equation for the `total` field of the sanitizer. -/
theorem sanitize_total_def (supply : Nat → String)
    (ledger : List (Option RawPayment)) :
    (sanitizeDailyPayments supply ledger).total =
      ((sortPayments (ledger.foldl (sanStep supply)
        { uniq := [], seenIds := [], seenKeys := [], changed := false,
          fresh := 0 }).uniq).map Payment.amount).sum := rfl

/-- Unfolding equation for the `changed` field of the sanitizer. -/
theorem sanitize_changed_def (supply : Nat → String)
    (ledger : List (Option RawPayment)) :
    (sanitizeDailyPayments supply ledger).changed =
      ((ledger.foldl (sanStep supply)
        { uniq := [], seenIds := [], seenKeys := [], changed := false,
          fresh := 0 }).changed ||
        decide (sortSigs (ledger.filterMap rawSignature) ≠
          sortSigs ((sortPayments (ledger.foldl (sanStep supply)
            { uniq := [], seenIds := [], seenKeys := [], changed := false,
              fresh := 0 }).uniq).map
            fun p => (p.date, p.amount, p.id)))) := rfl

/-! ## Claim C7 -/

/-- C7: ledger sanitization is idempotent.  Given that the fresh-id
supply is injective, never produces the empty string, and never collides
with a client-supplied id (the `ObjectId`-uniqueness assumption backing
`new mongoose.Types.ObjectId()`), running `sanitizeDailyPayments` a second
time on the output of a first run returns the identical payment list — the
same entries with the same ids, amounts, dates, in the same order — the
same total, and reports `changed = false`. -/
theorem sanitizeDailyPayments_idempotent (supply supply2 : Nat → String)
    (ledger : List (Option RawPayment))
    (hinj : Function.Injective supply)
    (hne : ∀ n, supply n ≠ "")
    (hfresh : ∀ raw ∈ ledger, IdentFresh supply raw) :
    (sanitizeDailyPayments supply2
        ((sanitizeDailyPayments supply ledger).payments.map
          Payment.toRaw)).payments =
      (sanitizeDailyPayments supply ledger).payments ∧
    (sanitizeDailyPayments supply2
        ((sanitizeDailyPayments supply ledger).payments.map
          Payment.toRaw)).total =
      (sanitizeDailyPayments supply ledger).total ∧
    (sanitizeDailyPayments supply2
        ((sanitizeDailyPayments supply ledger).payments.map
          Payment.toRaw)).changed = false := by
  have hinv := foldl_sanStep_inv hinj hne ledger _ hfresh (sanInv_init supply)
  set st1 := ledger.foldl (sanStep supply)
    { uniq := [], seenIds := [], seenKeys := [], changed := false,
      fresh := 0 } with hst1
  obtain ⟨hmap, hnd, hne', _, hamt⟩ := hinv
  set P := sortPayments st1.uniq with hP
  have hr1 : (sanitizeDailyPayments supply ledger).payments = P := rfl
  have hperm : List.Perm P st1.uniq := sortPayments_perm st1.uniq
  have hampos : ∀ p ∈ P, 0 < p.amount := fun p hp =>
    hamt p (hperm.mem_iff.mp hp)
  have hidne : ∀ p ∈ P, p.id ≠ "" := by
    intro p hp
    exact hne' p.id (hmap ▸ List.mem_map_of_mem Payment.id
      (hperm.mem_iff.mp hp))
  have hnodupP : (P.map Payment.id).Nodup := by
    have h1 : (st1.uniq.map Payment.id).Nodup := hmap ▸ hnd
    exact ((hperm.map Payment.id).nodup_iff).mpr h1
  have hstrict : P.Pairwise (fun a b => payLT a b = true) :=
    pairwise_payLT_of_nodup (sortPayments_pairwise st1.uniq) hnodupP
  have hreplay := foldl_sanStep_replay supply2 P
    { uniq := [], seenIds := [], seenKeys := [], changed := false,
      fresh := 0 } rfl hampos hidne (by simpa using hnodupP)
  obtain ⟨huniq2, hch2⟩ := hreplay
  have hsorted2 : sortPayments
      ((P.map Payment.toRaw).foldl (sanStep supply2)
        { uniq := [], seenIds := [], seenKeys := [], changed := false,
          fresh := 0 }).uniq = P := by
    rw [huniq2, List.nil_append]
    exact sortPayments_eq_of_sorted hstrict
  have hsig : (P.map Payment.toRaw).filterMap rawSignature =
      P.map fun p => (p.date, p.amount, p.id) :=
    filterMap_rawSignature_toRaw P hampos hidne
  refine ⟨?_, ?_, ?_⟩
  · rw [sanitize_payments_def, hr1, hsorted2]
  · rw [sanitize_total_def supply2, sanitize_total_def supply, hr1, hsorted2]
  · rw [sanitize_changed_def, hr1, hch2, hsig, hsorted2, Bool.false_or,
      decide_eq_false_iff_not]
    exact fun hcontra => hcontra rfl

/-- A concrete injective fresh-id supply for witnesses: `n` maps to the
string of `n + 1` copies of `f`. -/
def idSupplyW (n : Nat) : String := String.mk (List.replicate (n + 1) 'f')

theorem idSupplyW_injective : Function.Injective idSupplyW := by
  intro a b h
  have h2 : List.replicate (a + 1) 'f' = List.replicate (b + 1) 'f' :=
    congrArg String.data h
  have h3 := congrArg List.length h2
  simpa using h3

theorem idSupplyW_ne_empty (n : Nat) : idSupplyW n ≠ "" := by
  intro h
  rw [idSupplyW] at h
  have h2 : List.replicate (n + 1) 'f' = "".data := congrArg String.data h
  rw [List.replicate_succ] at h2
  exact absurd h2 (by simp)

/-- A concrete raw ledger for witnesses: one entry with a client id, one
without, and one null slot. -/
def ledgerW : List (Option RawPayment) :=
  [some { id := some "a", amount := some 500, date := some 5 },
   some { id := none, amount := some 300, date := some 6 },
   none]

theorem ledgerW_identFresh : ∀ raw ∈ ledgerW, IdentFresh idSupplyW raw := by
  intro raw hraw p hp i hi m hcontra
  fin_cases hraw
  · cases hp
    simp only [rawIdent] at hi
    rw [if_neg (by decide)] at hi
    injection hi with hi2
    subst hi2
    rw [idSupplyW] at hcontra
    have h2 : "a".data = List.replicate (m + 1) 'f' :=
      congrArg String.data hcontra
    rw [List.replicate_succ] at h2
    exact absurd h2 (by simp)
  · cases hp
    simp only [rawIdent] at hi
    exact absurd hi (by simp)
  · exact absurd hp (by simp)

/-- Witness for C7: the idempotence theorem applied to the concrete
ledger `ledgerW` with the concrete injective supply `idSupplyW`. -/
theorem sanitizeDailyPayments_idempotent_witness :
    (sanitizeDailyPayments idSupplyW
        ((sanitizeDailyPayments idSupplyW ledgerW).payments.map
          Payment.toRaw)).payments =
      (sanitizeDailyPayments idSupplyW ledgerW).payments ∧
    (sanitizeDailyPayments idSupplyW
        ((sanitizeDailyPayments idSupplyW ledgerW).payments.map
          Payment.toRaw)).total =
      (sanitizeDailyPayments idSupplyW ledgerW).total ∧
    (sanitizeDailyPayments idSupplyW
        ((sanitizeDailyPayments idSupplyW ledgerW).payments.map
          Payment.toRaw)).changed = false :=
  sanitizeDailyPayments_idempotent idSupplyW idSupplyW ledgerW
    idSupplyW_injective idSupplyW_ne_empty ledgerW_identFresh

/-! ## The per-payment allocation loop of `syncLoanRepaymentSchedule`
(`loanRoutes.js` lines 904–955, with `ensureScheduleEntry` lines 464–493) -/

/-- The date `ensureScheduleEntry` actually targets: the cursor itself,
normalized to the next business day when it lands on a weekend
(`loanRoutes.js` lines 471–473). -/
def effBusinessDate (cursor : Nat) : Nat :=
  if isWeekend cursor then getNextBusinessDay cursor else cursor

/-- One visit of the allocation loop body at the schedule entry for
`effDate`: find the first entry with that date, creating one at the end
of the schedule if absent (`ensureScheduleEntry`), then either skip it
(`none`: holiday status, or no remaining capacity) or apply
`min remaining capacity` to it (`some applied`).  Returns the updated
schedule and the outcome.  In integer cents the JavaScript's
`if (!applied) break` guard (`normalizeAmount` rounding the applicable
amount to zero) can never fire, because capacity and remaining are both
at least one cent in the apply branch. -/
def ensureApply (dailyAmount r : Int) (effDate : Nat) :
    List Entry → List Entry × Option Int
  | [] =>
    if dailyAmount ≤ 0 then
      ([{ date := effDate, status := "pending", amountPaid := 0 }], none)
    else
      ([{ date := effDate, status := "pending",
          amountPaid := min r dailyAmount }], some (min r dailyAmount))
  | e :: rest =>
    if e.date == effDate then
      if e.status == "holiday" then (e :: rest, none)
      else if dailyAmount - e.amountPaid ≤ 0 then (e :: rest, none)
      else
        ({ e with amountPaid := e.amountPaid + min r (dailyAmount - e.amountPaid) } :: rest,
          some (min r (dailyAmount - e.amountPaid)))
    else
      let res := ensureApply dailyAmount r effDate rest
      (e :: res.1, res.2)

/-- The `while (remainingAmount > 0.0001)` loop of
`syncLoanRepaymentSchedule` (`loanRoutes.js` lines 908–954), fuelled:
`none` means the fuel ran out (the termination theorem shows enough fuel
always exists).  A skip advances the cursor to the next business day
without consuming the remaining amount; an application decreases the
remaining amount and advances the cursor when something is left. -/
def allocLoop (dailyAmount : Int) :
    Nat → List Entry → Int → Nat → Option (List Entry)
  | 0, _, _, _ => none
  | fuel + 1, sched, r, cursor =>
    if r ≤ 0 then some sched
    else
      let res := ensureApply dailyAmount r (effBusinessDate cursor) sched
      match res.2 with
      | none => allocLoop dailyAmount fuel res.1 r (getNextBusinessDay cursor)
      | some a =>
        if r - a ≤ 0 then some res.1
        else allocLoop dailyAmount fuel res.1 (r - a) (getNextBusinessDay cursor)

/-- Entries the loop may still have to skip past: those dated at or after
the entry the cursor currently targets. -/
def skipCount (sched : List Entry) (cursor : Nat) : Nat :=
  (sched.filter fun e => effBusinessDate cursor ≤ e.date).length

theorem effBusinessDate_getNextBusinessDay (cursor : Nat) :
    effBusinessDate (getNextBusinessDay cursor) = getNextBusinessDay cursor := by
  simp [effBusinessDate, getNextBusinessDay_not_weekend]

theorem length_filter_le_length_filter {α : Type} (p q : α → Bool) :
    ∀ l : List α, (∀ x ∈ l, q x = true → p x = true) →
      (l.filter q).length ≤ (l.filter p).length := by
  intro l
  induction l with
  | nil => intro _; simp
  | cons h t ih =>
    intro himp
    have iht := ih fun x hx => himp x (List.mem_cons_of_mem h hx)
    rcases hq : q h with _ | _
    · rcases hp : p h with _ | _ <;> simp [List.filter_cons, hq, hp] <;> omega
    · have hp := himp h (List.mem_cons_self h t) hq
      simp [List.filter_cons, hq, hp]
      omega

theorem length_filter_lt_length_filter {α : Type} (p q : α → Bool) :
    ∀ l : List α, (∀ x ∈ l, q x = true → p x = true) →
      ∀ x ∈ l, p x = true → q x = false →
      (l.filter q).length < (l.filter p).length := by
  intro l
  induction l with
  | nil => intro _ x hx; simp at hx
  | cons h t ih =>
    intro himp x hx hpx hqx
    have himpt : ∀ y ∈ t, q y = true → p y = true :=
      fun y hy => himp y (List.mem_cons_of_mem h hy)
    rcases hq : q h with _ | _
    · rcases hp : p h with _ | _
      · have hxt : x ∈ t := by
          rcases List.mem_cons.mp hx with rfl | hxt
          · rw [hpx] at hp
            exact absurd hp (by simp)
          · exact hxt
        have := ih himpt x hxt hpx hqx
        simp [List.filter_cons, hq, hp]
        omega
      · have := length_filter_le_length_filter p q t himpt
        simp [List.filter_cons, hq, hp]
        omega
    · have hp := himp h (List.mem_cons_self h t) hq
      have hxt : x ∈ t := by
        rcases List.mem_cons.mp hx with rfl | hxt
        · rw [hqx] at hq
          exact absurd hq (by simp)
        · exact hxt
      have := ih himpt x hxt hpx hqx
      simp [List.filter_cons, hq, hp]
      omega

/-- When the visit skips, the schedule is unchanged and the skipped entry
exists at the targeted date (so the cursor really does advance past an
existing holiday-or-full entry); requires a positive per-installment
amount (a freshly created entry always has capacity then). -/
theorem ensureApply_none {dailyAmount r : Int} (hda : 1 ≤ dailyAmount)
    (effDate : Nat) :
    ∀ sched : List Entry, (ensureApply dailyAmount r effDate sched).2 = none →
      (ensureApply dailyAmount r effDate sched).1 = sched ∧
        ∃ e ∈ sched, e.date = effDate := by
  intro sched
  induction sched with
  | nil =>
    intro h
    rw [ensureApply, if_neg (by omega)] at h
    exact absurd h (by simp)
  | cons e rest ih =>
    intro h
    simp only [ensureApply] at h ⊢
    by_cases hd : e.date == effDate
    · rw [if_pos hd] at h ⊢
      by_cases hh : e.status == "holiday"
      · rw [if_pos hh] at h ⊢
        exact ⟨rfl, e, List.mem_cons_self e rest, by simpa using hd⟩
      · rw [if_neg hh] at h ⊢
        by_cases hc : dailyAmount - e.amountPaid ≤ 0
        · rw [if_pos hc] at h ⊢
          exact ⟨rfl, e, List.mem_cons_self e rest, by simpa using hd⟩
        · rw [if_neg hc] at h
          exact absurd h (by simp)
    · rw [if_neg hd] at h ⊢
      obtain ⟨h1, e2, hmem, hdate⟩ := ih h
      exact ⟨by rw [h1], e2, List.mem_cons_of_mem e hmem, hdate⟩

/-- When the visit applies, the applied amount is at least one cent and
at most the remaining amount. -/
theorem ensureApply_some {dailyAmount r : Int} (hda : 1 ≤ dailyAmount)
    (hr : 1 ≤ r) (effDate : Nat) :
    ∀ (sched : List Entry) (a : Int),
      (ensureApply dailyAmount r effDate sched).2 = some a →
      1 ≤ a ∧ a ≤ r := by
  intro sched
  induction sched with
  | nil =>
    intro a h
    rw [ensureApply, if_neg (by omega)] at h
    simp only at h
    injection h with h
    constructor <;> omega
  | cons e rest ih =>
    intro a h
    simp only [ensureApply] at h
    by_cases hd : e.date == effDate
    · rw [if_pos hd] at h
      by_cases hh : e.status == "holiday"
      · rw [if_pos hh] at h
        exact absurd h (by simp)
      · rw [if_neg hh] at h
        by_cases hc : dailyAmount - e.amountPaid ≤ 0
        · rw [if_pos hc] at h
          exact absurd h (by simp)
        · rw [if_neg hc] at h
          simp only at h
          injection h with h
          constructor <;> omega
    · rw [if_neg hd] at h
      exact ih a h

theorem skipCount_nextBD_of_weekend (sched : List Entry) {cursor : Nat}
    (hw : isWeekend cursor = true) :
    skipCount sched (getNextBusinessDay cursor) = skipCount sched cursor := by
  unfold skipCount
  rw [effBusinessDate_getNextBusinessDay]
  unfold effBusinessDate
  rw [hw]
  simp

theorem skipCount_nextBD_of_not_weekend {sched : List Entry} {cursor : Nat}
    (hw : isWeekend cursor = false) {e : Entry} (hmem : e ∈ sched)
    (hdate : e.date = cursor) :
    skipCount sched (getNextBusinessDay cursor) < skipCount sched cursor := by
  unfold skipCount
  rw [effBusinessDate_getNextBusinessDay]
  have hcur : effBusinessDate cursor = cursor := by
    unfold effBusinessDate
    rw [hw]
    simp
  rw [hcur]
  refine length_filter_lt_length_filter _ _ sched ?_ e hmem ?_ ?_
  · intro x _ hx
    have h1 := getNextBusinessDay_gt cursor
    simp only [decide_eq_true_eq] at hx ⊢
    omega
  · simp [hdate]
  · have h1 := getNextBusinessDay_gt cursor
    simp only [decide_eq_false_iff_not, decide_eq_true_eq, hdate]
    omega

theorem allocLoop_terminates_aux (dailyAmount : Int) (hda : 1 ≤ dailyAmount) :
    ∀ R : Nat, ∀ r : Int, r.toNat ≤ R →
      ∀ k : Nat, ∀ (sched : List Entry) (cursor : Nat),
        2 * skipCount sched cursor + (if isWeekend cursor then 1 else 0) ≤ k →
        ∃ n, (allocLoop dailyAmount n sched r cursor).isSome = true := by
  intro R
  induction R with
  | zero =>
    intro r hr k sched cursor _
    have hr0 : r ≤ 0 := by omega
    exact ⟨1, by simp [allocLoop, hr0]⟩
  | succ R ih =>
    intro r hr k
    induction k using Nat.strong_induction_on with
    | _ k ihk =>
      intro sched cursor hk
      by_cases hr0 : r ≤ 0
      · exact ⟨1, by simp [allocLoop, hr0]⟩
      have hr1 : 1 ≤ r := by omega
      rcases hres : (ensureApply dailyAmount r (effBusinessDate cursor) sched).2
        with _ | a
      · -- skip: holiday or exhausted capacity, cursor advances
        obtain ⟨hsame, e, hmem, hdate⟩ :=
          ensureApply_none hda (effBusinessDate cursor) sched hres
        by_cases hw : isWeekend cursor
        · have hsc := skipCount_nextBD_of_weekend sched hw
          have hlt : 2 * skipCount sched (getNextBusinessDay cursor) +
              (if isWeekend (getNextBusinessDay cursor) then 1 else 0) < k := by
            rw [hsc, getNextBusinessDay_not_weekend cursor]
            rw [hw] at hk
            simp only [Bool.false_eq_true, if_false, if_true] at hk ⊢
            omega
          obtain ⟨n, hn⟩ := ihk _ hlt sched (getNextBusinessDay cursor) le_rfl
          refine ⟨n + 1, ?_⟩
          simp only [allocLoop, if_neg hr0, hres]
          rw [hsame]
          exact hn
        · have hcur : effBusinessDate cursor = cursor := by
            unfold effBusinessDate
            rw [Bool.eq_false_iff.mpr hw]
            simp
          have hlt : 2 * skipCount sched (getNextBusinessDay cursor) +
              (if isWeekend (getNextBusinessDay cursor) then 1 else 0) < k := by
            have := skipCount_nextBD_of_not_weekend
              (Bool.eq_false_iff.mpr hw) hmem (hcur ▸ hdate)
            rw [getNextBusinessDay_not_weekend cursor]
            rw [Bool.eq_false_iff.mpr hw] at hk
            simp only [Bool.false_eq_true, if_false] at hk ⊢
            omega
          obtain ⟨n, hn⟩ := ihk _ hlt sched (getNextBusinessDay cursor) le_rfl
          refine ⟨n + 1, ?_⟩
          simp only [allocLoop, if_neg hr0, hres]
          rw [hsame]
          exact hn
      · -- apply: remaining amount strictly decreases
        obtain ⟨ha1, har⟩ :=
          ensureApply_some hda hr1 (effBusinessDate cursor) sched a hres
        by_cases hr2 : r - a ≤ 0
        · refine ⟨1, ?_⟩
          simp [allocLoop, if_neg hr0, hres]
          omega
        · have hr2' : (r - a).toNat ≤ R := by omega
          obtain ⟨n, hn⟩ := ih (r - a) hr2'
            (2 * skipCount (ensureApply dailyAmount r (effBusinessDate cursor)
              sched).1 (getNextBusinessDay cursor) +
              (if isWeekend (getNextBusinessDay cursor) then 1 else 0))
            (ensureApply dailyAmount r (effBusinessDate cursor) sched).1
            (getNextBusinessDay cursor) le_rfl
          refine ⟨n + 1, ?_⟩
          simp only [allocLoop, if_neg hr0, hres, if_neg hr2]
          exact hn

/-! ## Claim C10 -/

/-- C10: for every finite schedule, remaining amount, cursor date and
positive per-installment `dailyAmount` (at least one cent), the
per-payment allocation loop of `syncLoanRepaymentSchedule` terminates:
some finite fuel makes `allocLoop` return a result.  Each iteration
either applies at least one cent (strictly decreasing the remaining
amount), or skips a holiday-or-full schedule entry (strictly shrinking
the entries at or after the cursor, which advances to a strictly later
business day); the rounded-to-zero break case cannot fire on integer
cents. -/
theorem allocLoop_terminates (dailyAmount r : Int) (sched : List Entry)
    (cursor : Nat) (hda : 1 ≤ dailyAmount) :
    ∃ n, (allocLoop dailyAmount n sched r cursor).isSome = true :=
  allocLoop_terminates_aux dailyAmount hda r.toNat r le_rfl
    (2 * skipCount sched cursor + (if isWeekend cursor then 1 else 0))
    sched cursor le_rfl

/-- Witness for C10: the termination theorem at a concrete loan shape — a
250.00 payment dated 2024-01-02 against an empty schedule with a 100.00
per-installment amount. -/
theorem allocLoop_terminates_witness :
    (1 : Int) ≤ 10000 ∧
      ∃ n, (allocLoop 10000 n [] 25000 19724).isSome = true :=
  ⟨by decide, allocLoop_terminates 10000 25000 [] 19724 (by decide)⟩

/-! ## Loan documents (`models/loan.js`) -/

/-- The slice of `loanDetails` the scheduling engine reads and writes. -/
structure LoanDetails where
  loanType : String := "daily"
  amountToBePaid : Int := 0
  amountPaidSoFar : Int := 0
  dailyAmount : Option Int := none
  dailyPayment : List (Option RawPayment) := []
  deriving Repr, DecidableEq

/-- The slice of a loan document the scheduling engine reads and writes. -/
structure Loan where
  status : String := "waiting for approval"
  disbursedAt : Option Nat := none
  rejectionReason : Option String := none
  loanDetails : LoanDetails := {}
  repaymentSchedule : List Entry := []
  deriving Repr, DecidableEq

/-- The loan-document mutations `sanitizeDailyPayments` performs on its
argument (`loanRoutes.js` lines 721–737): replace the ledger when
anything changed, and always overwrite `amountPaidSoFar` with the
normalized ledger total. -/
def applySanitize (loan : Loan) (r : SanitizeResult) : Loan :=
  { loan with
    loanDetails :=
      { loan.loanDetails with
        dailyPayment :=
          if r.changed then r.payments.map Payment.toRaw
          else loan.loanDetails.dailyPayment,
        amountPaidSoFar := r.total } }

/-! ## Schedule initialization and finalization
(`loanRoutes.js` lines 505–531, 746–870) -/

/-- `applyHolidayStatus` from `loanRoutes.js` lines 778–807; the holiday
store is modelled as the resolved date lookup `holMap` (exact-date and
recurring matches collapsed into one map, see the header). -/
def applyHolidayStatus (holMap : Nat → Option String) (e : Entry) : Entry :=
  match holMap e.date with
  | some reason =>
    { e with status := "holiday", amountPaid := 0, holidayReason := some reason }
  | none => e

/-- The status normalization of `initializeRepaymentSchedule`
(`loanRoutes.js` lines 834–842): `holiday`, `submitted` and `approved`
are kept; anything else becomes `approved` at index 0 and `pending`
otherwise. -/
def normalizeInitStatus (idx : Nat) (status : String) : String :=
  if status == "holiday" then status
  else if status == "submitted" then status
  else if status == "approved" then status
  else if idx == 0 then "approved" else "pending"

/-- The indexed map-and-dedup pass of `initializeRepaymentSchedule`
(`loanRoutes.js` lines 820–857): drop entries repeating an already seen
date, reset `amountPaid` to 0, normalize the status by original index,
and re-apply holiday overrides. -/
def initEntries (holMap : Nat → Option String) :
    List Nat → List (Nat × Entry) → List Entry
  | _, [] => []
  | seen, (idx, e) :: rest =>
    if seen.contains e.date then initEntries holMap seen rest
    else
      applyHolidayStatus holMap
          { date := e.date, status := normalizeInitStatus idx e.status,
            amountPaid := 0, holidayReason := e.holidayReason } ::
        initEntries holMap (seen ++ [e.date]) rest

/-- Stable insertion by date (`schedule.sort((a, b) => a.date - b.date)`). -/
def insertEntryByDate (e : Entry) : List Entry → List Entry
  | [] => [e]
  | f :: rest =>
    if e.date < f.date then e :: f :: rest else f :: insertEntryByDate e rest

/-- Stable sort of schedule entries by date. -/
def sortEntriesByDate : List Entry → List Entry
  | [] => []
  | e :: rest => insertEntryByDate e (sortEntriesByDate rest)

/-- The first-entry fix-up of `initializeRepaymentSchedule`
(`loanRoutes.js` lines 861–868): the earliest entry becomes `approved`
unless it is `submitted` or `holiday`. -/
def approveFirstEntry : List Entry → List Entry
  | [] => []
  | first :: rest =>
    if first.status != "submitted" && first.status != "holiday" then
      { first with status := "approved" } :: rest
    else first :: rest

/-- `initializeRepaymentSchedule` from `loanRoutes.js` lines 809–870:
reuse the stored schedule when non-empty, else generate a fresh one from
the start date and loan type; then dedup/normalize/holiday-mark, sort by
date, and fix up the first entry. -/
def initializeRepaymentSchedule (holMap : Nat → Option String) (loan : Loan)
    (startDate : Nat) : List Entry :=
  let baseEntries :=
    if loan.repaymentSchedule.isEmpty then
      generateRepaymentSchedule startDate loan.loanDetails.loanType
    else loan.repaymentSchedule
  approveFirstEntry (sortEntriesByDate (initEntries holMap [] baseEntries.enum))

/-- `finalizeEntryStatus` from `loanRoutes.js` lines 505–531, on integer
cents (tolerance `0.01` is one cent): holidays are untouched; paid
within one cent of the installment amount snaps to exactly that amount
with status `paid`; more than one cent is `partial`; otherwise the
amount is zeroed and the status reverts (keeping `submitted`, and
`approved` at index 0). -/
def finalizeEntryStatus (dailyAmount : Int) (idx : Nat) (e : Entry) : Entry :=
  if e.status == "holiday" then e
  else if dailyAmount - 1 ≤ e.amountPaid then
    { e with amountPaid := dailyAmount, status := "paid" }
  else if 1 < e.amountPaid then { e with status := "partial" }
  else
    { e with
      amountPaid := 0,
      status :=
        if e.status == "submitted" then "submitted"
        else if idx == 0 && e.status == "approved" then "approved"
        else "pending" }

/-! ## `syncLoanRepaymentSchedule` (`loanRoutes.js` lines 872–992) -/

/-- Stable insertion of a (date, amount) payment by date
(`sanitizedPayments.sort((a, b) => a.date - b.date)`). -/
def insertPayByDate (p : Nat × Int) : List (Nat × Int) → List (Nat × Int)
  | [] => [p]
  | q :: rest => if p.1 < q.1 then p :: q :: rest else q :: insertPayByDate p rest

/-- Stable sort of (date, amount) payments by date. -/
def sortPaysByDate : List (Nat × Int) → List (Nat × Int)
  | [] => []
  | p :: rest => insertPayByDate p (sortPaysByDate rest)

/-- The sanitized, date-sorted (date, amount) payment list the sync
routine allocates (`loanRoutes.js` lines 879–896). -/
def syncSortedPays (supply : Nat → String) (loan : Loan) : List (Nat × Int) :=
  sortPaysByDate
    ((sanitizeDailyPayments supply loan.loanDetails.dailyPayment).payments.map
      fun p => (p.date, p.amount))

/-- The fallback schedule start date (`loanRoutes.js` lines 898–901):
the disbursement date, else the earliest payment date, else today. -/
def syncFallbackStart (supply : Nat → String) (now : Nat) (loan : Loan) : Nat :=
  match loan.disbursedAt with
  | some d => d
  | none =>
    match syncSortedPays supply loan with
    | (d, _) :: _ => d
    | [] => now

/-- Allocate the sorted payments one after the other through the
per-payment loop (`loanRoutes.js` lines 904–955). -/
def runAlloc (dailyAmount : Int) (fuel : Nat) :
    List Entry → List (Nat × Int) → Option (List Entry)
  | sched, [] => some sched
  | sched, (d, amt) :: rest =>
    match allocLoop dailyAmount fuel sched amt d with
    | none => none
    | some sched2 => runAlloc dailyAmount fuel sched2 rest

/-- The post-allocation pass (`loanRoutes.js` lines 957–971): sort by
date, re-apply holiday overrides to non-holiday entries, and finalize
every entry's status by index. -/
def finalizeSchedule (holMap : Nat → Option String) (dailyAmount : Int)
    (schedule1 : List Entry) : List Entry :=
  (sortEntriesByDate schedule1).enum.map fun pr =>
    finalizeEntryStatus dailyAmount pr.1
      (if pr.2.status == "holiday" then pr.2 else applyHolidayStatus holMap pr.2)

/-- What `syncLoanRepaymentSchedule` returns, together with the mutated
loan document (`loanRoutes.js` lines 973–991). -/
structure SyncResult where
  schedule : List Entry
  amountPaidSoFar : Int
  loan : Loan
  deriving Repr, DecidableEq

/-- Package the final schedule into the result and the loan-document
mutations (`loan.repaymentSchedule = schedule`,
`loan.loanDetails.amountPaidSoFar = amountPaidSoFar`). -/
def packSyncResult (loan1 : Loan) (schedule3 : List Entry) : SyncResult :=
  { schedule := schedule3,
    amountPaidSoFar := (schedule3.map Entry.amountPaid).sum,
    loan :=
      { loan1 with
        repaymentSchedule := schedule3,
        loanDetails :=
          { loan1.loanDetails with
            amountPaidSoFar := (schedule3.map Entry.amountPaid).sum } } }

/-- `syncLoanRepaymentSchedule` from `loanRoutes.js` lines 872–992:
`none` models the thrown error on a missing or non-positive
`dailyAmount` (and, in this fuelled model, fuel exhaustion of the
allocation loop, which the termination theorem rules out for sufficient
fuel).  Holidays are passed as the resolved date lookup `holMap`. -/
def syncLoanRepaymentSchedule (supply : Nat → String)
    (holMap : Nat → Option String) (fuel : Nat) (now : Nat) (loan : Loan) :
    Option SyncResult :=
  match loan.loanDetails.dailyAmount with
  | none => none
  | some dailyAmount =>
    if dailyAmount ≤ 0 then none
    else
      match runAlloc dailyAmount fuel
          (initializeRepaymentSchedule holMap loan
            (syncFallbackStart supply now loan))
          (syncSortedPays supply loan) with
      | none => none
      | some schedule1 =>
        some (packSyncResult
          (applySanitize loan
            (sanitizeDailyPayments supply loan.loanDetails.dailyPayment))
          (finalizeSchedule holMap dailyAmount schedule1))

/-! ## `POST /api/loans/:id/payments` (`loanRoutes.js` lines 1479–1585) -/

/-- The request's `date` field: absent (the server uses today), present
but unparseable, or a valid date. -/
inductive DateField where
  | missing
  | invalid
  | given (d : Nat)
  deriving Repr, DecidableEq

/-- A payment submission: `amount` is `none` when non-numeric. -/
structure PayRequest where
  amount : Option Int
  date : DateField
  deriving Repr, DecidableEq

/-- The payments route's responses, by rejection reason; `success`
carries the response body's `amountPaidSoFar` and `status`. -/
inductive PayResponse where
  | invalidAmount
  | invalidDate
  | alreadyRemitted
  | weekendRejected
  | notFound
  | exceedsBalance (outstandingBalance : Int)
  | success (amountPaidSoFar : Int) (status : String)
  deriving Repr, DecidableEq

/-- `POST /api/loans/:id/payments` (`loanRoutes.js` lines 1479–1585):
validate the amount and date, reject when the agent already filed a
remittance for that day, reject weekends, reject amounts exceeding
`max(amountToBePaid − amountPaidSoFar, 0)` when `amountToBePaid > 0`,
then push the payment, re-sanitize the ledger (which recomputes
`amountPaidSoFar` as the ledger total) and flip the status to
`fully paid` on exact settlement.  Returns the stored loan after the
request and the response; rejections leave the store untouched. -/
def recordPayment (supply : Nat → String) (now : Nat)
    (remittanceDates : List Nat) (req : PayRequest) (stored : Option Loan) :
    Option Loan × PayResponse :=
  match req.amount with
  | none => (stored, .invalidAmount)
  | some amt =>
    if amt ≤ 0 then (stored, .invalidAmount)
    else
      match (match req.date with
             | .missing => some now
             | .invalid => none
             | .given d => some d : Option Nat) with
      | none => (stored, .invalidDate)
      | some paymentDate =>
        if remittanceDates.contains paymentDate then (stored, .alreadyRemitted)
        else if isWeekend paymentDate then (stored, .weekendRejected)
        else
          match stored with
          | none => (none, .notFound)
          | some loan =>
            let amountToBePaid := loan.loanDetails.amountToBePaid
            let currentPaid := loan.loanDetails.amountPaidSoFar
            let outstandingBalance := amountToBePaid - currentPaid
            if 0 < amountToBePaid ∧ max outstandingBalance 0 < amt then
              (stored, .exceedsBalance (max outstandingBalance 0))
            else
              let pushed :=
                { loan with
                  loanDetails :=
                    { loan.loanDetails with
                      dailyPayment := loan.loanDetails.dailyPayment ++
                        [some { id := none, amount := some amt,
                                date := some paymentDate }] } }
              let san := sanitizeDailyPayments supply
                pushed.loanDetails.dailyPayment
              let loan2 := applySanitize pushed san
              let loan3 :=
                if 0 < amountToBePaid ∧ san.total = amountToBePaid then
                  { loan2 with status := "fully paid" }
                else loan2
              (some loan3, .success san.total loan3.status)

/-! ## `GET /api/loans/:id/repayment/sync` (`loanRoutes.js` lines
1587–1617) -/

/-- The sync route's response: not found, or the (in-memory) loan it
returns. -/
inductive SyncRouteResponse where
  | notFound
  | ok (loan : Loan)
  deriving Repr, DecidableEq

/-- `GET /api/loans/:id/repayment/sync` as written (`loanRoutes.js`
lines 1587–1617): it sanitizes the ledger, saves only when the ledger
changed, and returns the loan.  The call to `syncLoanRepaymentSchedule`
and the success response below it (lines 1603–1611) sit after an
unconditional `return res.json(loan)` and are unreachable, so the route
never touches the repayment schedule. -/
def syncRepaymentRoute (supply : Nat → String) (stored : Option Loan) :
    Option Loan × SyncRouteResponse :=
  match stored with
  | none => (none, .notFound)
  | some loan =>
    let san := sanitizeDailyPayments supply loan.loanDetails.dailyPayment
    let loan1 := applySanitize loan san
    (if san.changed then some loan1 else some loan, .ok loan1)

/-! ## `PATCH /api/loans/:id/reject` (`loanRoutes.js` lines 2645–2683) -/

/-- Whitespace test for the model of JavaScript's `String.trim()`. -/
def isWsChar (c : Char) : Bool :=
  c == ' ' || c == '\t' || c == '\n' || c == '\r'

/-- Drop leading whitespace characters. -/
def dropLeadingWs : List Char → List Char
  | [] => []
  | c :: rest => if isWsChar c then dropLeadingWs rest else c :: rest

/-- Executable model of JavaScript's `String.trim()`: drop leading and
trailing whitespace. -/
def trimString (s : String) : String :=
  String.mk (dropLeadingWs (dropLeadingWs s.data.reverse).reverse)

/-- The reject route's responses. -/
inductive RejectResponse where
  | reasonRequired
  | notFound
  | approvedCannotReject
  | alreadyRejected
  | ok (loan : Loan)
  deriving Repr, DecidableEq

/-- `PATCH /api/loans/:id/reject` (`loanRoutes.js` lines 2645–2683):
requires a non-empty reason; refuses `approved` and already `rejected`
loans; otherwise — from any other status — sets the status to
`rejected`, stores the trimmed reason, and clears the repayment
schedule. -/
def rejectLoan (reason : String) (stored : Option Loan) :
    Option Loan × RejectResponse :=
  if ((trimString reason).length == 0 : Bool) then (stored, .reasonRequired)
  else
    match stored with
    | none => (none, .notFound)
    | some loan =>
      if loan.status == "approved" then (stored, .approvedCannotReject)
      else if loan.status == "rejected" then (stored, .alreadyRejected)
      else
        let loan2 :=
          { loan with
            status := "rejected",
            rejectionReason := some (trimString reason),
            repaymentSchedule := [] }
        (some loan2, .ok loan2)

/-! ## Outstanding-loan classification
(`GET /api/csos/loans/outstanding`, `loanRoutes.js` lines 2167–2246;
the same computation appears in `POST /api/loans` lines 1086–1117 and in
`GET /api/admin/csos/:csoId/outstanding-loans`) -/

/-- The weekend roll-back applied to today's date (`loanRoutes.js`
lines 2178–2182): Saturday uses Friday, Sunday uses the preceding
Friday. -/
def adjustSelectedDate (today : Nat) : Nat :=
  if dayOfWeek today == 6 then today - 1
  else if dayOfWeek today == 0 then today - 2
  else today

/-- The per-loan outstanding computation (`loanRoutes.js` lines
2189–2220), given the resolved holiday set and the (already rolled-back)
selected date: returns `(expectedRepayment, outstandingDue)`. -/
def loanOutstandingMetrics (holidaySet : List Nat) (selectedDate : Nat)
    (loan : Loan) : Int × Int :=
  let dailyAmount := (loan.loanDetails.dailyAmount).getD 0
  let amountPaid := loan.loanDetails.amountPaidSoFar
  let amountToBePaid := loan.loanDetails.amountToBePaid
  let scheduleCountTillToday :=
    (loan.repaymentSchedule.filter fun e => e.date ≤ selectedDate).length
  if 22 < scheduleCountTillToday then
    (amountToBePaid, max 0 (amountToBePaid - amountPaid))
  else
    let daysElapsed : Int :=
      match loan.disbursedAt with
      | some d => (getWeekdaysBetweenSync (d + 1) selectedDate holidaySet : Int)
      | none => 0
    let effectiveDaysElapsed := max 0 daysElapsed
    let scheduleDaysDue := max 0 ((scheduleCountTillToday : Int) - 1)
    let daysCounted := min effectiveDaysElapsed scheduleDaysDue
    let expectedRepayment := dailyAmount * daysCounted
    (expectedRepayment, max 0 (expectedRepayment - amountPaid))

/-- The full per-loan classifier of `GET /api/csos/loans/outstanding`:
roll back today to a weekday, then compute the metrics. -/
def csoOutstandingLoan (holidaySet : List Nat) (today : Nat) (loan : Loan) :
    Int × Int :=
  loanOutstandingMetrics holidaySet (adjustSelectedDate today) loan

/-! ## Concrete loans for counterexamples and witnesses -/

/-- An active daily loan: disbursed Tuesday 2024-01-02, 100.00 per
installment, 2300.00 to be paid, freshly generated schedule, empty
ledger. -/
def exLoanC1 : Loan :=
  { status := "active loan", disbursedAt := some 19724,
    loanDetails :=
      { loanType := "daily", amountToBePaid := 230000, amountPaidSoFar := 0,
        dailyAmount := some 10000, dailyPayment := [] },
    repaymentSchedule := generateDailyRepaymentSchedule 19724 }

/-- A 500.00 payment dated Tuesday 2024-01-09 (day 19731). -/
def reqC1 : PayRequest := { amount := some 50000, date := .given 19731 }

/-- Like `exLoanC1` but with one 100.00 ledger payment dated at
disbursement, not yet reflected in the schedule. -/
def exLoanC2 : Loan :=
  { status := "active loan", disbursedAt := some 19724,
    loanDetails :=
      { loanType := "daily", amountToBePaid := 230000, amountPaidSoFar := 0,
        dailyAmount := some 10000,
        dailyPayment :=
          [some { id := some "a", amount := some 10000, date := some 19724 }] },
    repaymentSchedule := generateDailyRepaymentSchedule 19724 }

/-! ## Claim C1 -/

/-- C1 counterexample: recording a 500.00 payment via the payments route
against `exLoanC1` stores `amountPaidSoFar = 50000` (the sanitized
ledger total) while the stored repayment schedule still sums to 0 — the
route never reallocates the schedule, so
`amountPaidSoFar = sum(installment.amountPaid)` fails right after a
`recordPayment` ledger mutation. -/
theorem recordPayment_breaks_schedule_sum_invariant :
    ((recordPayment idSupplyW 19731 [] reqC1 (some exLoanC1)).1.map
        fun l => l.loanDetails.amountPaidSoFar) = some 50000 ∧
    ((recordPayment idSupplyW 19731 [] reqC1 (some exLoanC1)).1.map
        fun l => (l.repaymentSchedule.map Entry.amountPaid).sum) = some 0 ∧
    (50000 : Int) ≠ 0 := by
  decide

/-- C1 (amended): after `syncLoanRepaymentSchedule`, `amountPaidSoFar`
equals the sum of `amountPaid` over the repayment schedule (both in the
returned result and on the mutated loan document).  `recordPayment`,
however, never touches the repayment schedule: it sets
`amountPaidSoFar` to the sanitized ledger total, so the invariant holds
after a sync but not in general after a payment recording. -/
theorem sync_invariant_recordPayment_preserves_schedule :
    (∀ (supply : Nat → String) (holMap : Nat → Option String)
        (fuel now : Nat) (loan : Loan) (res : SyncResult),
      syncLoanRepaymentSchedule supply holMap fuel now loan = some res →
        res.amountPaidSoFar = (res.schedule.map Entry.amountPaid).sum ∧
        res.loan.loanDetails.amountPaidSoFar =
          (res.loan.repaymentSchedule.map Entry.amountPaid).sum) ∧
    (∀ (supply : Nat → String) (now : Nat) (remit : List Nat)
        (req : PayRequest) (loan : Loan),
      (recordPayment supply now remit req (some loan)).1.map
          (fun l => l.repaymentSchedule) = some loan.repaymentSchedule) := by
  constructor
  · intro supply holMap fuel now loan res h
    unfold syncLoanRepaymentSchedule at h
    rcases hda : loan.loanDetails.dailyAmount with _ | da
    · simp only [hda] at h
      exact Option.noConfusion h
    · simp only [hda] at h
      by_cases hle : da ≤ 0
      · rw [if_pos hle] at h
        exact absurd h (by simp)
      · rw [if_neg hle] at h
        rcases hra : runAlloc da fuel
            (initializeRepaymentSchedule holMap loan
              (syncFallbackStart supply now loan))
            (syncSortedPays supply loan) with _ | schedule1
        · simp only [hra] at h
          exact Option.noConfusion h
        · simp only [hra] at h
          injection h with h
          subst h
          exact ⟨rfl, rfl⟩
  · intro supply now remit req loan
    unfold recordPayment
    rcases hamt : req.amount with _ | amt
    · rfl
    · by_cases hle : amt ≤ 0
      · simp only [if_pos hle]
        rfl
      · simp only [if_neg hle]
        rcases hdate : req.date with _ | _ | d
        · simp only []
          split
          · rfl
          · split
            · rfl
            · split
              · rfl
              · split <;> rfl
        · rfl
        · simp only []
          split
          · rfl
          · split
            · rfl
            · split
              · rfl
              · split <;> rfl

/-- Witness for C1 (amended): both halves applied at concrete inputs —
the sync theorem at `exLoanC2` (which allocates its 100.00 payment) and
the payments-route theorem at `exLoanC1` with request `reqC1`. -/
theorem sync_invariant_recordPayment_preserves_schedule_witness :
    (∃ res, syncLoanRepaymentSchedule idSupplyW (fun _ => none) 20 19724
        exLoanC2 = some res ∧
      res.amountPaidSoFar = (res.schedule.map Entry.amountPaid).sum) ∧
    (recordPayment idSupplyW 19731 [] reqC1 (some exLoanC1)).1.map
        (fun l => l.repaymentSchedule) = some exLoanC1.repaymentSchedule := by
  constructor
  · rcases h : syncLoanRepaymentSchedule idSupplyW (fun _ => none) 20 19724
        exLoanC2 with _ | res
    · exact absurd h (by decide)
    · exact ⟨res, rfl,
        (sync_invariant_recordPayment_preserves_schedule.1 _ _ _ _ _ _ h).1⟩
  · exact sync_invariant_recordPayment_preserves_schedule.2 idSupplyW 19731 []
      reqC1 exLoanC1

/-! ## Claim C2 -/

/-- C2: the sync route as shipped only sanitizes the ledger and returns
the loan: the stored repayment schedule is always left unchanged (first
conjunct), even though the in-repo `syncLoanRepaymentSchedule` — called
only from dead code below the route's unconditional
`return res.json(loan)` — would recompute a different schedule for
`exLoanC2`, whose ledger holds an unallocated 100.00 payment (remaining
conjuncts). -/
theorem syncRoute_leaves_schedule_unchanged :
    (∀ (supply : Nat → String) (loan l' : Loan),
      (syncRepaymentRoute supply (some loan)).1 = some l' →
        l'.repaymentSchedule = loan.repaymentSchedule) ∧
    (syncLoanRepaymentSchedule idSupplyW (fun _ => none) 20 19724
        exLoanC2).isSome = true ∧
    (syncLoanRepaymentSchedule idSupplyW (fun _ => none) 20 19724
        exLoanC2).map SyncResult.schedule ≠ some exLoanC2.repaymentSchedule := by
  refine ⟨?_, by decide, by decide⟩
  intro supply loan l' h
  unfold syncRepaymentRoute at h
  simp only at h
  split at h <;> injection h with h <;> subst h <;> rfl

/-- Witness for C2: the schedule-preservation half applied to the
concrete loan `exLoanC2`. -/
theorem syncRoute_leaves_schedule_unchanged_witness :
    ∃ l', (syncRepaymentRoute idSupplyW (some exLoanC2)).1 = some l' ∧
      l'.repaymentSchedule = exLoanC2.repaymentSchedule := by
  rcases h : (syncRepaymentRoute idSupplyW (some exLoanC2)).1 with _ | l'
  · exact absurd h (by decide)
  · exact ⟨l', rfl, syncRoute_leaves_schedule_unchanged.1 _ _ _ h⟩

/-! ## Claim C4 -/

/-- The claim's expected-repayment formula, written exactly as the claim
states it (for comparison with the code): `dailyAmount × min(business
days since disbursement+1, scheduleCountTillToday − 1)` with no clamping
of `scheduleCountTillToday − 1` at zero. -/
def claimedExpectedRepayment (holidaySet : List Nat) (selectedDate : Nat)
    (loan : Loan) : Int :=
  let scheduleCountTillToday :=
    (loan.repaymentSchedule.filter fun e => e.date ≤ selectedDate).length
  if 22 < scheduleCountTillToday then loan.loanDetails.amountToBePaid
  else
    (loan.loanDetails.dailyAmount).getD 0 *
      min (match loan.disbursedAt with
           | some d => (getWeekdaysBetweenSync (d + 1) selectedDate
               holidaySet : Int)
           | none => 0)
        ((scheduleCountTillToday : Int) - 1)

/-- A daily loan disbursed on Saturday 2024-01-06 (day 19728): its
generated schedule starts the following Monday, so on that same Saturday
(rolled back to Friday 2024-01-05) no schedule entry is due yet. -/
def exLoanC4 : Loan :=
  { status := "active loan", disbursedAt := some 19728,
    loanDetails :=
      { loanType := "daily", amountToBePaid := 230000, amountPaidSoFar := 0,
        dailyAmount := some 10000, dailyPayment := [] },
    repaymentSchedule := generateDailyRepaymentSchedule 19728 }

/-- C4 counterexample: for `exLoanC4` classified on Saturday 2024-01-06
(rolled back to Friday), `scheduleCountTillToday = 0`, so the claim's
formula gives `dailyAmount × min(daysElapsed, −1) = −100.00` while the
code clamps `scheduleCountTillToday − 1` at zero and reports
`expectedRepayment = 0`. -/
theorem csoOutstanding_neq_claimed_formula :
    (csoOutstandingLoan [] 19728 exLoanC4).1 = 0 ∧
    claimedExpectedRepayment [] (adjustSelectedDate 19728) exLoanC4 =
      -10000 ∧
    (csoOutstandingLoan [] 19728 exLoanC4).1 ≠
      claimedExpectedRepayment [] (adjustSelectedDate 19728) exLoanC4 := by
  decide

/-- C4 (amended): for every active daily loan with a disbursement date,
classified on `asOfDate` rolled back from a weekend to the preceding
Friday: if more than 22 schedule entries are dated on or before the
selected date, `expectedRepayment = amountToBePaid`; otherwise
`expectedRepayment = dailyAmount × min(business days from
disbursement+1 through the selected date excluding holidays,
max(0, scheduleCountTillToday − 1))`; in both cases
`outstandingDue = max(0, expectedRepayment − amountPaidSoFar)`. -/
theorem csoOutstanding_formula (holidaySet : List Nat) (today : Nat)
    (loan : Loan) (d : Nat) (hd : loan.disbursedAt = some d) :
    (csoOutstandingLoan holidaySet today loan).1 =
      (if 22 < (loan.repaymentSchedule.filter fun e =>
          e.date ≤ adjustSelectedDate today).length then
        loan.loanDetails.amountToBePaid
      else
        (loan.loanDetails.dailyAmount).getD 0 *
          min ((getWeekdaysBetweenSync (d + 1) (adjustSelectedDate today)
              holidaySet : Int))
            (max 0 (((loan.repaymentSchedule.filter fun e =>
              e.date ≤ adjustSelectedDate today).length : Int) - 1))) ∧
    (csoOutstandingLoan holidaySet today loan).2 =
      max 0 ((csoOutstandingLoan holidaySet today loan).1 -
        loan.loanDetails.amountPaidSoFar) := by
  unfold csoOutstandingLoan loanOutstandingMetrics
  simp only [hd]
  by_cases hcount : 22 < (loan.repaymentSchedule.filter fun e =>
      e.date ≤ adjustSelectedDate today).length
  · simp only [if_pos hcount]
    refine ⟨?_, ?_⟩ <;> first | rfl | trivial
  · simp only [if_neg hcount]
    rw [max_eq_right (Int.natCast_nonneg _)]
    refine ⟨?_, ?_⟩ <;> first | rfl | trivial

/-- Witness for C4 (amended): the formula theorem at `exLoanC4` on
Saturday 2024-01-06. -/
theorem csoOutstanding_formula_witness :
    exLoanC4.disbursedAt = some 19728 ∧
    (csoOutstandingLoan [] 19728 exLoanC4).1 =
      (if 22 < (exLoanC4.repaymentSchedule.filter fun e =>
          e.date ≤ adjustSelectedDate 19728).length then
        exLoanC4.loanDetails.amountToBePaid
      else
        (exLoanC4.loanDetails.dailyAmount).getD 0 *
          min ((getWeekdaysBetweenSync (19728 + 1) (adjustSelectedDate 19728)
              [] : Int))
            (max 0 (((exLoanC4.repaymentSchedule.filter fun e =>
              e.date ≤ adjustSelectedDate 19728).length : Int) - 1))) ∧
    (csoOutstandingLoan [] 19728 exLoanC4).2 =
      max 0 ((csoOutstandingLoan [] 19728 exLoanC4).1 -
        exLoanC4.loanDetails.amountPaidSoFar) :=
  ⟨rfl, csoOutstanding_formula [] 19728 exLoanC4 19728 rfl⟩

/-! ## Claim C5 -/

/-- C5: for every loan with `amountToBePaid > 0`, a payment whose amount
exceeds `max(amountToBePaid − amountPaidSoFar, 0)` is always rejected —
no response is a success and the stored loan is untouched — and when the
request passes the earlier validity checks (a parseable date, no
remittance filed for that day, not a weekend), the rejection is
`exceedsBalance` carrying exactly the remaining allowed amount. -/
theorem recordPayment_rejects_overpayment (supply : Nat → String)
    (now : Nat) (remit : List Nat) (req : PayRequest) (loan : Loan)
    (amt : Int) (hamt : req.amount = some amt)
    (hatbp : 0 < loan.loanDetails.amountToBePaid)
    (hover : max (loan.loanDetails.amountToBePaid -
      loan.loanDetails.amountPaidSoFar) 0 < amt) :
    (recordPayment supply now remit req (some loan)).1 = some loan ∧
    (∀ t s, (recordPayment supply now remit req (some loan)).2 ≠
      .success t s) ∧
    (∀ d, req.date = .given d → remit.contains d = false →
      isWeekend d = false →
      (recordPayment supply now remit req (some loan)).2 =
        .exceedsBalance (max (loan.loanDetails.amountToBePaid -
          loan.loanDetails.amountPaidSoFar) 0)) := by
  have hle : ¬ amt ≤ 0 := by
    have := le_max_right (loan.loanDetails.amountToBePaid -
      loan.loanDetails.amountPaidSoFar) 0
    omega
  unfold recordPayment
  rw [hamt]
  simp only [if_neg hle]
  rcases hdate : req.date with _ | _ | d
  · simp only [hdate]
    rcases hrem : remit.contains now with _ | _
    · rcases hw : isWeekend now with _ | _
      · rw [if_neg (by simp), if_neg (by simp),
          if_pos (And.intro hatbp hover)]
        refine ⟨rfl, fun t s hc => PayResponse.noConfusion hc, ?_⟩
        intro d2 hct
        exact absurd hct (by simp)
      · rw [if_neg (by simp), if_pos rfl]
        refine ⟨rfl, fun t s hc => PayResponse.noConfusion hc, ?_⟩
        intro d2 hct
        exact absurd hct (by simp)
    · rw [if_pos rfl]
      refine ⟨rfl, fun t s hc => PayResponse.noConfusion hc, ?_⟩
      intro d2 hct
      exact absurd hct (by simp)
  · exact ⟨rfl, fun t s hc => PayResponse.noConfusion hc,
      fun d2 hct => absurd hct (by simp)⟩
  · simp only [hdate]
    rcases hrem : remit.contains d with _ | _
    · rcases hw : isWeekend d with _ | _
      · rw [if_neg (by simp), if_neg (by simp),
          if_pos (And.intro hatbp hover)]
        refine ⟨rfl, fun t s hc => PayResponse.noConfusion hc, ?_⟩
        intro d2 hct
        injection hct with hct
        subst hct
        intro _ _
        rfl
      · rw [if_neg (by simp), if_pos rfl]
        refine ⟨rfl, fun t s hc => PayResponse.noConfusion hc, ?_⟩
        intro d2 hct
        injection hct with hct
        subst hct
        intro _ hw2
        rw [hw] at hw2
        exact absurd hw2 (by simp)
    · rw [if_pos rfl]
      refine ⟨rfl, fun t s hc => PayResponse.noConfusion hc, ?_⟩
      intro d2 hct
      injection hct with hct
      subst hct
      intro hrem2 _
      rw [hrem] at hrem2
      exact absurd hrem2 (by simp)

/-- Witness for C5: a 5000.00 payment against `exLoanC1` (outstanding
2300.00) on Tuesday 2024-01-09 is rejected with the outstanding
balance. -/
theorem recordPayment_rejects_overpayment_witness :
    (recordPayment idSupplyW 19731 []
        { amount := some 500000, date := .given 19731 } (some exLoanC1)).1 =
      some exLoanC1 ∧
    (∀ t s, (recordPayment idSupplyW 19731 []
        { amount := some 500000, date := .given 19731 }
          (some exLoanC1)).2 ≠ .success t s) ∧
    (∀ d, ({ amount := some 500000, date := .given 19731 } : PayRequest).date
        = .given d →
      ([] : List Nat).contains d = false → isWeekend d = false →
      (recordPayment idSupplyW 19731 []
          { amount := some 500000, date := .given 19731 }
            (some exLoanC1)).2 =
        .exceedsBalance (max (exLoanC1.loanDetails.amountToBePaid -
          exLoanC1.loanDetails.amountPaidSoFar) 0)) :=
  recordPayment_rejects_overpayment idSupplyW 19731 []
    { amount := some 500000, date := .given 19731 } exLoanC1 500000
    rfl (by decide) (by decide)

/-! ## Claim C6 -/

/-- The holiday store contents for the C6 counterexample: Tuesday
2024-01-09 (day 19731) is a registered holiday. -/
def holidayStoreC6 : List Nat := [19731]

/-- C6 counterexample: a payment dated on the registered (weekday)
holiday 2024-01-09 is accepted and mutates the loan — the payments route
checks only `isWeekend` and the remittance ledger, never the Holiday
store, so "non-business day (weekend or holiday)" over-promises. -/
theorem recordPayment_accepts_holiday_payment :
    isWeekend 19731 = false ∧
    19731 ∈ holidayStoreC6 ∧
    (recordPayment idSupplyW 19731 []
        { amount := some 10000, date := .given 19731 } (some exLoanC1)).2 =
      .success 10000 "active loan" ∧
    (recordPayment idSupplyW 19731 []
        { amount := some 10000, date := .given 19731 } (some exLoanC1)).1 ≠
      some exLoanC1 := by
  decide

/-- C6 (amended): for every payment submission with a valid amount and a
parseable date, the payments route rejects the payment outright when the
submitting agent has already filed a remittance for that date or when
the date is a Saturday or Sunday — in that order — and no stored state
changes on such a rejection.  Registered holidays are not checked. -/
theorem recordPayment_rejects_remitted_or_weekend (supply : Nat → String)
    (now : Nat) (remit : List Nat) (req : PayRequest)
    (stored : Option Loan) (amt : Int) (d : Nat)
    (hamt : req.amount = some amt) (hpos : 0 < amt)
    (hdate : req.date = .given d)
    (hbad : remit.contains d = true ∨ isWeekend d = true) :
    (recordPayment supply now remit req stored).1 = stored ∧
    ((recordPayment supply now remit req stored).2 = .alreadyRemitted ∨
      (recordPayment supply now remit req stored).2 = .weekendRejected) := by
  have hle : ¬ amt ≤ 0 := by omega
  unfold recordPayment
  rw [hamt, hdate]
  simp only [if_neg hle]
  rcases hrem : remit.contains d with _ | _
  · rcases hbad with hbad | hbad
    · rw [hrem] at hbad
      exact absurd hbad (by simp)
    · simp [hrem, hbad]
  · simp [hrem]

/-- Witness for C6 (amended): a weekend payment (Saturday 2024-01-06,
day 19728) is rejected with the store untouched. -/
theorem recordPayment_rejects_remitted_or_weekend_witness :
    (recordPayment idSupplyW 19728 []
        { amount := some 10000, date := .given 19728 } (some exLoanC1)).1 =
      some exLoanC1 ∧
    ((recordPayment idSupplyW 19728 []
        { amount := some 10000, date := .given 19728 }
          (some exLoanC1)).2 = .alreadyRemitted ∨
      (recordPayment idSupplyW 19728 []
          { amount := some 10000, date := .given 19728 }
            (some exLoanC1)).2 = .weekendRejected) :=
  recordPayment_rejects_remitted_or_weekend idSupplyW 19728 []
    { amount := some 10000, date := .given 19728 } (some exLoanC1) 10000
    19728 rfl (by decide) rfl (Or.inr (by decide))

/-! ## Claim C9 -/

/-- An active loan for the C9 counterexample. -/
def exLoanC9 : Loan :=
  { status := "active loan", disbursedAt := some 19724,
    loanDetails :=
      { loanType := "daily", amountToBePaid := 230000,
        amountPaidSoFar := 50000, dailyAmount := some 10000,
        dailyPayment := [] },
    repaymentSchedule := generateDailyRepaymentSchedule 19724 }

/-- C9 counterexample: rejecting a loan whose status is `active loan`
(neither `waiting for approval` nor `edited`) succeeds — the route sets
the status to `rejected`, stores the reason and clears the schedule —
so `rejected` is reachable from `active loan`, contradicting the claim
that rejection succeeds only from `waiting_for_approval`/`edited`. -/
theorem rejectLoan_succeeds_from_active :
    exLoanC9.status = "active loan" ∧
    (rejectLoan "customer defaulted" (some exLoanC9)).1 =
      some { exLoanC9 with
             status := "rejected",
             rejectionReason := some "customer defaulted",
             repaymentSchedule := [] } := by
  constructor
  · rfl
  · rfl

/-- C9 (amended): given a non-empty rejection reason and an existing
loan, the reject route fails with a state-conflict error, leaving the
loan unchanged, exactly when the loan is `approved` or already
`rejected`; from every other status (including `active loan` and
`fully paid`) it succeeds, setting status `rejected`, storing the
trimmed reason, and clearing the repayment schedule. -/
theorem rejectLoan_behavior (reason : String) (loan : Loan)
    (hreason : ((trimString reason).length == 0 : Bool) = false) :
    (loan.status ≠ "approved" → loan.status ≠ "rejected" →
      rejectLoan reason (some loan) =
        (some { loan with
                status := "rejected",
                rejectionReason := some (trimString reason),
                repaymentSchedule := [] },
         .ok { loan with
               status := "rejected",
               rejectionReason := some (trimString reason),
               repaymentSchedule := [] })) ∧
    (loan.status = "approved" ∨ loan.status = "rejected" →
      (rejectLoan reason (some loan)).1 = some loan ∧
        ((rejectLoan reason (some loan)).2 = .approvedCannotReject ∨
          (rejectLoan reason (some loan)).2 = .alreadyRejected)) := by
  unfold rejectLoan
  rw [hreason]
  simp only [Bool.false_eq_true, if_false]
  constructor
  · intro h1 h2
    rw [if_neg (by simpa using h1), if_neg (by simpa using h2)]
  · intro h
    rcases h with h | h
    · rw [if_pos (by simpa using h)]
      exact ⟨rfl, Or.inl rfl⟩
    · have h1 : ¬(loan.status == "approved") = true := by
        simp [h]
      rw [if_neg h1, if_pos (by simpa using h)]
      exact ⟨rfl, Or.inr rfl⟩

/-- Witness for C9 (amended): rejecting the active loan `exLoanC9`
succeeds, and rejecting an approved loan fails leaving it unchanged. -/
theorem rejectLoan_behavior_witness :
    (exLoanC9.status ≠ "approved" → exLoanC9.status ≠ "rejected" →
      rejectLoan "customer defaulted" (some exLoanC9) =
        (some { exLoanC9 with
                status := "rejected",
                rejectionReason := some (trimString "customer defaulted"),
                repaymentSchedule := [] },
         .ok { exLoanC9 with
               status := "rejected",
               rejectionReason := some (trimString "customer defaulted"),
               repaymentSchedule := [] })) ∧
    (exLoanC9.status = "approved" ∨ exLoanC9.status = "rejected" →
      (rejectLoan "customer defaulted" (some exLoanC9)).1 = some exLoanC9 ∧
        ((rejectLoan "customer defaulted" (some exLoanC9)).2 =
            .approvedCannotReject ∨
          (rejectLoan "customer defaulted" (some exLoanC9)).2 =
            .alreadyRejected)) :=
  rejectLoan_behavior "customer defaulted" exLoanC9 (by decide)

end LoanSystem
